import Mathlib

/-!
Shallow embedding of the vacuum-cleaner-world simulation core
(`src/environment.py` and the action endpoint of `src/environment_server.py`).

Conventions of the embedding:
* Python mutation is explicit state passing: a mutating method becomes a
  function `Environment → ... → result × Environment`.
* Python `int` is Lean `Int`; the float `dirt_rate` is modelled as `ℚ`
  (every dirt rate appearing in the claims is exactly representable).
* The numpy grid of 0/1 flags is modelled as the `Finset` of dirty cells,
  `(x, y)` pairs; `grid[y, x] = 1` corresponds to `(x, y) ∈ dirt`.
* The process-wide random generator is modelled as a stream `Nat → Nat` of
  raw draws; `random.seed s` replaces the stream by `seedStream s`.
-/

namespace VacuumWorld

/-- The action enumeration from `environment.py` (`class Action(Enum)`). -/
inductive Action
  | up
  | down
  | left
  | right
  | suck
  | idle
deriving DecidableEq

/-- One draw of the pool loop inside `random.sample` (partial Fisher–Yates): with the
pool non-empty, pick index `j = r % len(pool)`, return `pool[j]`, and shrink
the pool by overwriting position `j` with the last element and dropping the
last slot. -/
def drawOne {α : Type} (pool : List α) (r : Nat) : Option (α × List α) :=
  if h : 0 < pool.length then
    let j : Fin pool.length := ⟨r % pool.length, Nat.mod_lt _ h⟩
    some (pool.get j,
      (pool.set j (pool.getLast (List.length_pos.mp h))).dropLast)
  else none

/-- Model of `random.sample(pool, k)` driven by the stream `rng` of raw draws:
`k` successive `drawOne` steps.  (Python raises `ValueError` when
`k > len(pool)`; the environment only calls it with `k ≤ len(pool)`, where
this model is total and faithful.) -/
def sample {α : Type} (pool : List α) (k : Nat) (rng : Nat → Nat) : List α :=
  match k with
  | 0 => []
  | Nat.succ k' =>
    match drawOne pool (rng 0) with
    | none => []
    | some (x, pool') => x :: sample pool' k' (fun i => rng (i + 1))

/-- The cell list `[(x, y) for x in range(sizeX) for y in range(sizeY)]`. -/
def allCells (sizeX sizeY : Int) : List (Int × Int) :=
  (List.range sizeX.toNat).flatMap fun (x : Nat) =>
    (List.range sizeY.toNat).map fun (y : Nat) => ((x : Int), (y : Int))

/-- Python `int()` applied to a rational: truncation toward zero. -/
def pyInt (q : ℚ) : Int :=
  if 0 ≤ q then ⌊q⌋ else ⌈q⌉

/-- Python `round()` on a rational: nearest integer, ties to even
(used only to state the `round(width·height·dirtRate)` count that the spec mentions). -/
def pyRound (q : ℚ) : Int :=
  if q - ⌊q⌋ < 1 / 2 then ⌊q⌋
  else if 1 / 2 < q - ⌊q⌋ then ⌊q⌋ + 1
  else if ⌊q⌋ % 2 = 0 then ⌊q⌋ else ⌊q⌋ + 1

/-- The simulation state: the fields set up by `Environment.__init__`. -/
structure Environment where
  sizeX : Int
  sizeY : Int
  agent_x : Int
  agent_y : Int
  dirt : Finset (Int × Int)
  dirt_rate : ℚ
  performance : Int
  actions_taken : Int
  max_actions : Int
  completion_reason : Option String
deriving DecidableEq

/-- Modelled stand-in for the Mersenne Twister stream obtained after
`random.seed s`: a concrete deterministic function of the seed.  The theorems
below use only that it is a function of the seed alone, never its values. -/
def seedStream (s : Nat) : Nat → Nat :=
  fun i => s + i

/-- Model of `Environment._initialize_dirt`: draw
`int(sizeX * sizeY * dirt_rate)` cells without replacement from the cell
list, using the stream `rng`. -/
def initialize_dirt (sizeX sizeY : Int) (rate : ℚ) (rng : Nat → Nat) :
    Finset (Int × Int) :=
  (sample (allCells sizeX sizeY) (pyInt (sizeX * sizeY * rate)).toNat
    rng).toFinset

/-- Model of `Environment.__init__`: `globalRng` is the state of the process-wide
generator before construction; an explicit seed replaces it by
`seedStream s` (the `random.seed(seed)` call), otherwise the pre-existing
stream is used. -/
def mkEnvironment (sizeX sizeY init_posX init_posY : Int) (dirt_rate : ℚ)
    (seed : Option Nat) (globalRng : Nat → Nat) : Environment :=
  let rng := match seed with
    | some s => seedStream s
    | none => globalRng
  { sizeX := sizeX
    sizeY := sizeY
    agent_x := init_posX
    agent_y := init_posY
    dirt := initialize_dirt sizeX sizeY dirt_rate rng
    dirt_rate := dirt_rate
    performance := 0
    actions_taken := 0
    max_actions := 1000
    completion_reason := none }

/-- Model of `Environment.is_dirty`. -/
def is_dirty (e : Environment) : Bool :=
  decide ((e.agent_x, e.agent_y) ∈ e.dirt)

/-- Model of `Environment.all_dirt_cleaned` (`np.sum(self.grid) == 0`). -/
def all_dirt_cleaned (e : Environment) : Bool :=
  decide (e.dirt = ∅)

/-- Model of `Environment.accept_action`: returns the success flag and the updated
state. -/
def accept_action (e : Environment) (a : Action) : Bool × Environment :=
  if e.actions_taken ≥ e.max_actions then (false, e)
  else
    let e := { e with actions_taken := e.actions_taken + 1 }
    match a with
    | .up =>
      (true, if e.agent_y > 0 then { e with agent_y := e.agent_y - 1 } else e)
    | .down =>
      (true, if e.agent_y < e.sizeY - 1 then
        { e with agent_y := e.agent_y + 1 } else e)
    | .left =>
      (true, if e.agent_x > 0 then { e with agent_x := e.agent_x - 1 } else e)
    | .right =>
      (true, if e.agent_x < e.sizeX - 1 then
        { e with agent_x := e.agent_x + 1 } else e)
    | .suck =>
      (true, if (e.agent_x, e.agent_y) ∈ e.dirt then
        { e with dirt := e.dirt.erase (e.agent_x, e.agent_y),
                 performance := e.performance + 1 }
        else e)
    | .idle => (true, e)

/-- Model of `Environment.is_finished`: reports whether the session is finished and
lazily records the completion reason (a mutation of `completion_reason`). -/
def is_finished (e : Environment) : Bool × Environment :=
  if e.actions_taken ≥ e.max_actions then
    (true, if e.completion_reason = none then
      { e with completion_reason := some ("max_steps_reached") } else e)
  else if e.dirt = ∅ then
    (true, if e.completion_reason = none then
      { e with completion_reason := some ("all_cleaned") } else e)
  else (false, e)

/-- Model of `Environment.get_actions_remaining`. -/
def get_actions_remaining (e : Environment) : Int :=
  e.max_actions - e.actions_taken

/-- Folding a list of `accept_action` calls over a state. -/
def runActions (e : Environment) : List Action → Environment
  | [] => e
  | a :: rest => runActions (accept_action e a).2 rest

/-- What the `/sense` endpoint reads out of the environment
(`sense_environment` in `environment_server.py`). -/
structure SenseData where
  position : Int × Int
  is_dirty : Bool
  actions_remaining : Int
  is_finished : Bool
  completion_reason : Option String
deriving DecidableEq

/-- Model of `sense_environment`: builds the perception and, through its
`env.is_finished()` call, returns the (possibly mutated) environment. -/
def sense (e : Environment) : SenseData × Environment :=
  let fin := is_finished e
  ({ position := (e.agent_x, e.agent_y)
     is_dirty := is_dirty e
     actions_remaining := get_actions_remaining e
     is_finished := fin.1
     completion_reason := fin.2.completion_reason }, fin.2)

/-- Per-character model of Python `str.lower()`.  Python applies the full
Unicode lowercase mapping; this model implements it exactly on every
character whose Python lowercase is a single ASCII character — the ASCII
letters `A`–`Z` (via `Char.toLower`) and U+212A KELVIN SIGN, whose Unicode
lowercase is `k` — and leaves every other character unchanged.  That is
precisely the fragment the action-name lookup can observe: by the Unicode
case-mapping tables, every remaining character lowercases to itself or to
one or more non-ASCII characters (the one expanding lower mapping,
U+0130 → `i` followed by combining U+0307, keeps a non-ASCII character in
the result), so on every input string the dictionary lookup in
`execute_action` — a comparison against the six ASCII action names —
yields the same result over this model as over full Unicode lowercasing,
and dispatches the same action. -/
def pyLowerChar (c : Char) : Char :=
  if c = '\u212A' then 'k' else c.toLower

/-- Model of Python `str.lower()`: `pyLowerChar` applied character-wise
(no Python-relevant expansion can produce an ASCII action name, see
`pyLowerChar`). -/
def pyLower (s : String) : String :=
  String.mk (s.data.map pyLowerChar)

/-- The `action_map` dictionary of `execute_action`. -/
def action_map (s : String) : Option Action :=
  if s = "up" then some .up
  else if s = "down" then some .down
  else if s = "left" then some .left
  else if s = "right" then some .right
  else if s = "suck" then some .suck
  else if s = "idle" then some .idle
  else none

/-- Outcome of the `/action` endpoint, as far as the session state is
concerned. -/
inductive ActOutcome
  | actionRequired
  | invalidAction
  | executed (success : Bool) (reward : Int)
deriving DecidableEq

/-- Model of `execute_action` of `environment_server.py`, given a session that was
found: validates the action string (empty → `Action required`, unknown after
lowercasing → `Invalid action`), then applies the action and builds the
response, whose `is_finished` field again mutates the environment. -/
def execute_action (e : Environment) (action_str : String) :
    ActOutcome × Environment :=
  if action_str = "" then (.actionRequired, e)
  else
    match action_map (pyLower action_str) with
    | none => (.invalidAction, e)
    | some a =>
      let prev_performance := e.performance
      let step := accept_action e a
      let new_performance := step.2.performance
      let fin := is_finished step.2
      (.executed step.1 (new_performance - prev_performance), fin.2)

/-- The position invariant the spec states for GridWorld
(`0 ≤ x < width`, `0 ≤ y < height`). -/
def posInBounds (e : Environment) : Prop :=
  0 ≤ e.agent_x ∧ e.agent_x < e.sizeX ∧ 0 ≤ e.agent_y ∧ e.agent_y < e.sizeY

/-! ### Concrete states used as witness inputs -/

/-- A concrete session whose step budget is exhausted and whose reason was
already recorded. -/
def maxedEnv : Environment :=
  { sizeX := 1, sizeY := 1, agent_x := 0, agent_y := 0, dirt := ∅,
    dirt_rate := 0, performance := 0, actions_taken := 1000,
    max_actions := 1000, completion_reason := some ("max_steps_reached") }

/-- A concrete running session with one dirty cell. -/
def dirtyEnv : Environment :=
  { sizeX := 1, sizeY := 1, agent_x := 0, agent_y := 0, dirt := {(0, 0)},
    dirt_rate := 1, performance := 0, actions_taken := 0,
    max_actions := 1000, completion_reason := none }

/-! ### Facts about the `random.sample` model -/

theorem drawOne_none {α : Type} {pool : List α} {r : Nat}
    (h : drawOne pool r = none) : pool.length = 0 := by
  unfold drawOne at h
  split at h
  · exact absurd h (by simp)
  · omega

theorem drawOne_length {α : Type} {pool pool' : List α} {r : Nat} {x : α}
    (h : drawOne pool r = some (x, pool')) : pool'.length + 1 = pool.length := by
  unfold drawOne at h
  split at h
  · rename_i hpos
    simp only [Option.some.injEq, Prod.mk.injEq] at h
    rw [← h.2]
    simp
    omega
  · exact absurd h (by simp)

theorem drawOne_perm {α : Type} {pool pool' : List α} {r : Nat} {x : α}
    (h : drawOne pool r = some (x, pool')) : (x :: pool').Perm pool := by
  induction pool using List.reverseRecOn with
  | nil => exact absurd h (by simp [drawOne])
  | append_singleton l₀ b ih =>
    clear ih
    unfold drawOne at h
    split at h
    case isFalse => exact absurd h (by simp)
    case isTrue hpos =>
    simp only [Option.some.injEq, Prod.mk.injEq, List.get_eq_getElem] at h
    obtain ⟨hx, hp⟩ := h
    subst hx
    subst hp
    have hjlt : r % (l₀ ++ [b]).length < (l₀ ++ [b]).length :=
      Nat.mod_lt _ hpos
    have hlen : (l₀ ++ [b]).length = l₀.length + 1 := by simp
    rcases Nat.lt_or_ge (r % (l₀ ++ [b]).length) l₀.length with hj1 | hj2
    · -- the drawn index is strictly inside the initial segment
      rw [List.getElem_append_left hj1,
        List.set_append_left _ _ hj1, List.getLast_append_of_ne_nil (by simp),
        List.getLast_singleton, List.dropLast_concat]
      have hset : l₀.set (r % (l₀ ++ [b]).length) b =
          l₀.take (r % (l₀ ++ [b]).length) ++
            b :: l₀.drop (r % (l₀ ++ [b]).length + 1) := by
        rw [List.set_eq_take_append_cons_drop, if_pos hj1]
      have hsplit : l₀.take (r % (l₀ ++ [b]).length) ++
          l₀[r % (l₀ ++ [b]).length] :: l₀.drop (r % (l₀ ++ [b]).length + 1)
            = l₀ := by
        conv_rhs => rw [← List.take_append_drop (r % (l₀ ++ [b]).length) l₀]
        rw [List.drop_eq_getElem_cons hj1]
      rw [hset]
      conv_rhs => rw [← hsplit]
      have h1 : List.Perm
          (l₀[r % (l₀ ++ [b]).length] ::
            (l₀.take (r % (l₀ ++ [b]).length) ++
              b :: l₀.drop (r % (l₀ ++ [b]).length + 1)))
          (l₀[r % (l₀ ++ [b]).length] ::
            (b :: (l₀.take (r % (l₀ ++ [b]).length) ++
              l₀.drop (r % (l₀ ++ [b]).length + 1)))) :=
        List.Perm.cons _ List.perm_middle
      have h2 : List.Perm
          ((l₀.take (r % (l₀ ++ [b]).length) ++
              l₀[r % (l₀ ++ [b]).length] ::
                l₀.drop (r % (l₀ ++ [b]).length + 1)) ++ [b])
          (b :: (l₀.take (r % (l₀ ++ [b]).length) ++
            l₀[r % (l₀ ++ [b]).length] ::
              l₀.drop (r % (l₀ ++ [b]).length + 1))) :=
        List.perm_append_singleton b _
      have h3 : List.Perm
          (b :: (l₀.take (r % (l₀ ++ [b]).length) ++
            l₀[r % (l₀ ++ [b]).length] ::
              l₀.drop (r % (l₀ ++ [b]).length + 1)))
          (b :: (l₀[r % (l₀ ++ [b]).length] ::
            (l₀.take (r % (l₀ ++ [b]).length) ++
              l₀.drop (r % (l₀ ++ [b]).length + 1)))) :=
        List.Perm.cons _ List.perm_middle
      have h4 : List.Perm
          (b :: l₀[r % (l₀ ++ [b]).length] ::
            (l₀.take (r % (l₀ ++ [b]).length) ++
              l₀.drop (r % (l₀ ++ [b]).length + 1)))
          (l₀[r % (l₀ ++ [b]).length] :: b ::
            (l₀.take (r % (l₀ ++ [b]).length) ++
              l₀.drop (r % (l₀ ++ [b]).length + 1))) :=
        List.Perm.swap _ _ _
      exact h1.trans (h2.trans (h3.trans h4)).symm
    · -- the drawn index is the last slot: the pool is only truncated
      have hjeq : r % (l₀ ++ [b]).length = l₀.length := by omega
      rw [List.getElem_append_right hj2,
        List.set_append_right _ _ hj2, List.getLast_append_of_ne_nil (by simp),
        List.getLast_singleton]
      have h0 : r % (l₀ ++ [b]).length - l₀.length = 0 := by omega
      simp only [h0, List.getElem_singleton, List.set_cons_zero,
        List.dropLast_concat]
      exact (List.perm_append_singleton b l₀).symm

theorem sample_length {α : Type} :
    ∀ (k : Nat) (pool : List α) (rng : Nat → Nat), k ≤ pool.length →
      (sample pool k rng).length = k := by
  intro k
  induction k with
  | zero => intro pool rng _; rfl
  | succ k ih =>
    intro pool rng hk
    rw [sample]
    cases hd : drawOne pool (rng 0) with
    | none =>
      have := drawOne_none hd
      omega
    | some p =>
      obtain ⟨x, pool'⟩ := p
      have := drawOne_length hd
      simp only [List.length_cons]
      rw [ih pool' _ (by omega)]

theorem sample_append_perm {α : Type} :
    ∀ (k : Nat) (pool : List α) (rng : Nat → Nat), k ≤ pool.length →
      ∃ rest : List α, (sample pool k rng ++ rest).Perm pool := by
  intro k
  induction k with
  | zero => intro pool rng _; exact ⟨pool, by simp [sample]⟩
  | succ k ih =>
    intro pool rng hk
    rw [sample]
    cases hd : drawOne pool (rng 0) with
    | none =>
      have := drawOne_none hd
      omega
    | some p =>
      obtain ⟨x, pool'⟩ := p
      have hlen := drawOne_length hd
      obtain ⟨rest, hrest⟩ := ih pool' (fun i => rng (i + 1)) (by omega)
      refine ⟨rest, ?_⟩
      have : (x :: (sample pool' k (fun i => rng (i + 1)) ++ rest)).Perm
          (x :: pool') := List.Perm.cons x hrest
      exact this.trans (drawOne_perm hd)

theorem sample_nodup {α : Type} {k : Nat} {pool : List α} {rng : Nat → Nat}
    (hk : k ≤ pool.length) (hnd : pool.Nodup) : (sample pool k rng).Nodup := by
  obtain ⟨rest, hrest⟩ := sample_append_perm k pool rng hk
  have : (sample pool k rng ++ rest).Nodup := hrest.nodup_iff.mpr hnd
  exact List.Nodup.of_append_left this

theorem sample_subset {α : Type} {k : Nat} {pool : List α} {rng : Nat → Nat}
    (hk : k ≤ pool.length) : ∀ x ∈ sample pool k rng, x ∈ pool := by
  obtain ⟨rest, hrest⟩ := sample_append_perm k pool rng hk
  intro x hx
  exact hrest.mem_iff.mp (List.mem_append_left rest hx)

/-! ### Facts about the cell list -/

theorem length_allCells (sizeX sizeY : Int) :
    (allCells sizeX sizeY).length = sizeX.toNat * sizeY.toNat := by
  simp [allCells, List.length_flatMap, Function.comp_def]

theorem nodup_allCells (sizeX sizeY : Int) : (allCells sizeX sizeY).Nodup := by
  rw [allCells, List.nodup_flatMap]
  constructor
  · intro x _
    refine List.Nodup.map ?_ (List.nodup_range _)
    intro y₁ y₂ h
    simpa using congrArg Prod.snd h
  · rw [List.pairwise_iff_getElem]
    intro i j hi hj hij
    simp only [Function.onFun, List.getElem_range]
    intro p hp hq
    simp only [List.mem_map, List.mem_range] at hp hq
    obtain ⟨y₁, _, rfl⟩ := hp
    obtain ⟨y₂, _, h⟩ := hq
    have h2 : (j : ℕ) = i := by simpa using congrArg Prod.fst h
    omega

theorem mem_allCells {sizeX sizeY : Int} {p : Int × Int}
    (hx : 0 ≤ sizeX) (hy : 0 ≤ sizeY) :
    p ∈ allCells sizeX sizeY ↔
      0 ≤ p.1 ∧ p.1 < sizeX ∧ 0 ≤ p.2 ∧ p.2 < sizeY := by
  obtain ⟨a, b⟩ := p
  simp only [allCells, List.mem_flatMap, List.mem_map, List.mem_range,
    Prod.mk.injEq]
  constructor
  · rintro ⟨x, hxlt, y, hylt, h1, h2⟩
    rw [← h1, ← h2]
    refine ⟨by omega, by omega, by omega, by omega⟩
  · rintro ⟨ha, halt, hb, hblt⟩
    exact ⟨a.toNat, by omega, b.toNat, by omega, by omega, by omega⟩

/-! ### Single-step facts about `accept_action` -/

theorem accept_action_rejected {e : Environment} (a : Action)
    (h : e.actions_taken ≥ e.max_actions) : accept_action e a = (false, e) := by
  rw [accept_action, if_pos h]

theorem accept_action_fst (e : Environment) (a : Action) :
    (accept_action e a).1 = true ↔ e.actions_taken < e.max_actions := by
  rw [accept_action]
  split_ifs with h
  · simp; omega
  · cases a <;> simp <;> omega

theorem accept_action_actions_taken (e : Environment) (a : Action)
    (h : e.actions_taken < e.max_actions) :
    (accept_action e a).2.actions_taken = e.actions_taken + 1 := by
  rw [accept_action, if_neg (by omega)]
  cases a <;> simp <;> split_ifs <;> rfl

theorem accept_action_frame (e : Environment) (a : Action) :
    (accept_action e a).2.sizeX = e.sizeX ∧
    (accept_action e a).2.sizeY = e.sizeY ∧
    (accept_action e a).2.max_actions = e.max_actions ∧
    (accept_action e a).2.completion_reason = e.completion_reason := by
  rw [accept_action]
  split_ifs with h
  · exact ⟨rfl, rfl, rfl, rfl⟩
  · cases a <;> simp <;> split_ifs <;> simp

theorem accept_action_performance_mono (e : Environment) (a : Action) :
    e.performance ≤ (accept_action e a).2.performance := by
  rw [accept_action]
  split_ifs with h
  · simp
  · cases a <;> simp <;> (try split_ifs) <;> simp

theorem accept_action_dirt_subset (e : Environment) (a : Action) :
    (accept_action e a).2.dirt ⊆ e.dirt := by
  rw [accept_action]
  split_ifs with h
  · simp
  · cases a <;> simp <;> split_ifs <;> simp [Finset.erase_subset]

theorem accept_action_steps_le (e : Environment) (a : Action)
    (h : e.actions_taken ≤ e.max_actions) :
    (accept_action e a).2.actions_taken ≤ e.max_actions := by
  rw [accept_action]
  split_ifs with h2
  · exact h
  · cases a <;> simp <;> (try split_ifs) <;> (try simp) <;> omega

theorem accept_action_posInBounds (e : Environment) (a : Action)
    (h : posInBounds e) : posInBounds (accept_action e a).2 := by
  obtain ⟨h1, h2, h3, h4⟩ := h
  rw [posInBounds, accept_action]
  split_ifs with h0
  · exact ⟨h1, h2, h3, h4⟩
  · cases a <;> simp <;> (try split_ifs) <;> (try simp) <;> omega

/-! ### Facts about action sequences -/

theorem runActions_append (e : Environment) (acts₁ acts₂ : List Action) :
    runActions e (acts₁ ++ acts₂) = runActions (runActions e acts₁) acts₂ := by
  induction acts₁ generalizing e with
  | nil => rfl
  | cons a rest ih => rw [List.cons_append, runActions, runActions, ih]

theorem runActions_posInBounds (e : Environment) (acts : List Action)
    (h : posInBounds e) : posInBounds (runActions e acts) := by
  induction acts generalizing e with
  | nil => exact h
  | cons a rest ih =>
    exact ih _ (accept_action_posInBounds e a h)

theorem runActions_frame (e : Environment) (acts : List Action) :
    (runActions e acts).sizeX = e.sizeX ∧
    (runActions e acts).sizeY = e.sizeY ∧
    (runActions e acts).max_actions = e.max_actions ∧
    (runActions e acts).completion_reason = e.completion_reason := by
  induction acts generalizing e with
  | nil => exact ⟨rfl, rfl, rfl, rfl⟩
  | cons a rest ih =>
    obtain ⟨f1, f2, f3, f4⟩ := accept_action_frame e a
    obtain ⟨g1, g2, g3, g4⟩ := ih (accept_action e a).2
    exact ⟨g1.trans f1, g2.trans f2, g3.trans f3, g4.trans f4⟩

theorem runActions_performance_mono (e : Environment) (acts : List Action) :
    e.performance ≤ (runActions e acts).performance := by
  induction acts generalizing e with
  | nil => exact le_refl _
  | cons a rest ih =>
    exact le_trans (accept_action_performance_mono e a) (ih _)

theorem runActions_dirt_subset (e : Environment) (acts : List Action) :
    (runActions e acts).dirt ⊆ e.dirt := by
  induction acts generalizing e with
  | nil => exact Finset.Subset.refl _
  | cons a rest ih =>
    exact Finset.Subset.trans (ih _) (accept_action_dirt_subset e a)

theorem runActions_steps_le (e : Environment) (acts : List Action)
    (h : e.actions_taken ≤ e.max_actions) :
    (runActions e acts).actions_taken ≤ e.max_actions := by
  induction acts generalizing e with
  | nil => exact h
  | cons a rest ih =>
    have h2 := accept_action_steps_le e a h
    have h3 := (accept_action_frame e a).2.2.1
    rw [← h3] at h2
    have := ih (accept_action e a).2 h2
    rw [h3] at this
    exact this

/-! ### Facts about the dirt initialisation -/

theorem mkEnvironment_dirt_seeded (sizeX sizeY initX initY : Int) (rate : ℚ)
    (s : Nat) (g : Nat → Nat) :
    (mkEnvironment sizeX sizeY initX initY rate (some s) g).dirt =
      initialize_dirt sizeX sizeY rate (seedStream s) := rfl

theorem initialize_dirt_card (sizeX sizeY : Int) (rate : ℚ) (rng : Nat → Nat)
    (hk : (pyInt (sizeX * sizeY * rate)).toNat ≤ sizeX.toNat * sizeY.toNat) :
    (initialize_dirt sizeX sizeY rate rng).card =
      (pyInt (sizeX * sizeY * rate)).toNat := by
  rw [initialize_dirt,
    List.toFinset_card_of_nodup
      (sample_nodup (by rw [length_allCells]; exact hk) (nodup_allCells _ _))]
  exact sample_length _ _ _ (by rw [length_allCells]; exact hk)

theorem initialize_dirt_subset (sizeX sizeY : Int) (rate : ℚ) (rng : Nat → Nat)
    (hk : (pyInt (sizeX * sizeY * rate)).toNat ≤ sizeX.toNat * sizeY.toNat) :
    ∀ p ∈ initialize_dirt sizeX sizeY rate rng, p ∈ allCells sizeX sizeY := by
  intro p hp
  rw [initialize_dirt, List.mem_toFinset] at hp
  exact sample_subset (by rw [length_allCells]; exact hk) p hp

theorem numDirty_le (sizeX sizeY : Int) (rate : ℚ) (hx : 0 ≤ sizeX)
    (hy : 0 ≤ sizeY) (hr0 : 0 ≤ rate) (hr1 : rate ≤ 1) :
    (pyInt (sizeX * sizeY * rate)).toNat ≤ sizeX.toNat * sizeY.toNat := by
  obtain ⟨m, rfl⟩ := Int.eq_ofNat_of_zero_le hx
  obtain ⟨n, rfl⟩ := Int.eq_ofNat_of_zero_le hy
  have hq : (0 : ℚ) ≤ ((m : Int) : ℚ) * ((n : Int) : ℚ) * rate := by positivity
  rw [pyInt, if_pos hq]
  have h1 : ((m : Int) : ℚ) * ((n : Int) : ℚ) * rate ≤ ((m * n : ℕ) : ℚ) := by
    push_cast
    exact mul_le_of_le_one_right (by positivity) hr1
  have h2 : ⌊((m : Int) : ℚ) * ((n : Int) : ℚ) * rate⌋ ≤ ((m * n : ℕ) : Int) := by
    calc ⌊((m : Int) : ℚ) * ((n : Int) : ℚ) * rate⌋
        ≤ ⌊((m * n : ℕ) : ℚ)⌋ := Int.floor_mono h1
      _ = ((m * n : ℕ) : Int) := Int.floor_natCast _
  simp only [Int.toNat_natCast]
  omega

theorem mkEnvironment_dirt (sizeX sizeY initX initY : Int) (rate : ℚ)
    (seed : Option Nat) (g : Nat → Nat) :
    (mkEnvironment sizeX sizeY initX initY rate seed g).dirt =
      initialize_dirt sizeX sizeY rate
        (match seed with | some s => seedStream s | none => g) := rfl

theorem initialize_dirt_rate_zero (sizeX sizeY : Int) (rng : Nat → Nat) :
    initialize_dirt sizeX sizeY 0 rng = ∅ := by
  rw [initialize_dirt]
  have h : (pyInt (sizeX * sizeY * 0)).toNat = 0 := by
    norm_num [pyInt]
  rw [h]
  rfl

theorem mkEnvironment_dirt_rate_zero (sizeX sizeY initX initY : Int)
    (seed : Option Nat) (g : Nat → Nat) :
    (mkEnvironment sizeX sizeY initX initY 0 seed g).dirt = ∅ := by
  rw [mkEnvironment_dirt]
  exact initialize_dirt_rate_zero _ _ _

theorem accept_action_dirt_empty (e : Environment) (a : Action)
    (h : e.dirt = ∅) :
    (accept_action e a).2.dirt = ∅ ∧
    (accept_action e a).2.performance = e.performance := by
  rw [accept_action]
  split_ifs with h0
  · exact ⟨h, rfl⟩
  · cases a <;> simp [h] <;> (try split_ifs) <;> simp_all

theorem runActions_dirt_empty (e : Environment) (acts : List Action)
    (h : e.dirt = ∅) :
    (runActions e acts).dirt = ∅ ∧
    (runActions e acts).performance = e.performance := by
  induction acts generalizing e with
  | nil => exact ⟨h, rfl⟩
  | cons a rest ih =>
    obtain ⟨h1, h2⟩ := accept_action_dirt_empty e a h
    obtain ⟨g1, g2⟩ := ih (accept_action e a).2 h1
    exact ⟨g1, g2.trans h2⟩

theorem is_finished_fields (e : Environment) :
    (is_finished e).2.agent_x = e.agent_x ∧
    (is_finished e).2.agent_y = e.agent_y ∧
    (is_finished e).2.dirt = e.dirt ∧
    (is_finished e).2.performance = e.performance ∧
    (is_finished e).2.actions_taken = e.actions_taken := by
  rw [is_finished]
  split_ifs <;> exact ⟨rfl, rfl, rfl, rfl, rfl⟩

theorem is_finished_pure_cases (e : Environment) :
    ((is_finished e).1 = false → (is_finished e).2 = e) ∧
    (e.completion_reason ≠ none → (is_finished e).2 = e) := by
  rw [is_finished]
  split_ifs with h1 h2 h3 h4 <;> constructor <;> intro h <;> simp_all

/-! ### Claim theorems -/

/-- C4: two GridWorld constructions with identical width, height and dirt
rate, and the same explicit seed, produce identical initial dirt sets —
`random.seed(seed)` resets the process-wide generator, so the prior
generator states `g₁`, `g₂` (and the initial positions) are irrelevant. -/
theorem C4_construction_deterministic_in_seed
    (sizeX sizeY : Int) (initX₁ initY₁ initX₂ initY₂ : Int) (rate : ℚ)
    (s : Nat) (g₁ g₂ : Nat → Nat) :
    (mkEnvironment sizeX sizeY initX₁ initY₁ rate (some s) g₁).dirt =
      (mkEnvironment sizeX sizeY initX₂ initY₂ rate (some s) g₂).dirt := rfl

/-- C5: starting from a valid initial position, every state reachable by a
sequence of `accept_action` calls keeps the agent inside the grid:
`0 ≤ x < width` and `0 ≤ y < height`. -/
theorem C5_position_in_bounds
    (sizeX sizeY initX initY : Int) (rate : ℚ) (seed : Option Nat)
    (g : Nat → Nat) (acts : List Action)
    (h1 : 0 ≤ initX) (h2 : initX < sizeX) (h3 : 0 ≤ initY) (h4 : initY < sizeY) :
    0 ≤ (runActions (mkEnvironment sizeX sizeY initX initY rate seed g) acts).agent_x ∧
    (runActions (mkEnvironment sizeX sizeY initX initY rate seed g) acts).agent_x < sizeX ∧
    0 ≤ (runActions (mkEnvironment sizeX sizeY initX initY rate seed g) acts).agent_y ∧
    (runActions (mkEnvironment sizeX sizeY initX initY rate seed g) acts).agent_y < sizeY := by
  have hinv := runActions_posInBounds
    (mkEnvironment sizeX sizeY initX initY rate seed g) acts ⟨h1, h2, h3, h4⟩
  obtain ⟨f1, f2, -, -⟩ :=
    runActions_frame (mkEnvironment sizeX sizeY initX initY rate seed g) acts
  rw [posInBounds] at hinv
  rw [f1, f2] at hinv
  exact hinv

/-- C5 witness: the invariant instantiated on a concrete 2×2 session and a
concrete action sequence. -/
theorem C5_witness :
    (0 : Int) ≤ 0 ∧ (0 : Int) < 2 ∧
    (0 ≤ (runActions (mkEnvironment 2 2 0 0 0 none (fun _ => 0))
        [Action.right, Action.right, Action.up]).agent_x ∧
      (runActions (mkEnvironment 2 2 0 0 0 none (fun _ => 0))
        [Action.right, Action.right, Action.up]).agent_x < 2 ∧
      0 ≤ (runActions (mkEnvironment 2 2 0 0 0 none (fun _ => 0))
        [Action.right, Action.right, Action.up]).agent_y ∧
      (runActions (mkEnvironment 2 2 0 0 0 none (fun _ => 0))
        [Action.right, Action.right, Action.up]).agent_y < 2) :=
  ⟨le_refl 0, by norm_num,
    C5_position_in_bounds 2 2 0 0 0 none (fun _ => 0)
      [Action.right, Action.right, Action.up]
      (by norm_num) (by norm_num) (by norm_num) (by norm_num)⟩

/-- C6: in a state that still has step budget, a movement action directed
into a grid boundary leaves the position unchanged, reports success, and
consumes exactly one step: the post-state is the pre-state with only
`actions_taken` incremented. -/
theorem C6_boundary_move_consumes_step (e : Environment)
    (h : e.actions_taken < e.max_actions) :
    (e.agent_x = 0 → accept_action e .left =
      (true, { e with actions_taken := e.actions_taken + 1 })) ∧
    (e.agent_x = e.sizeX - 1 → accept_action e .right =
      (true, { e with actions_taken := e.actions_taken + 1 })) ∧
    (e.agent_y = 0 → accept_action e .up =
      (true, { e with actions_taken := e.actions_taken + 1 })) ∧
    (e.agent_y = e.sizeY - 1 → accept_action e .down =
      (true, { e with actions_taken := e.actions_taken + 1 })) := by
  refine ⟨?_, ?_, ?_, ?_⟩ <;> intro hb <;>
    simp only [accept_action, if_neg (by omega : ¬ e.actions_taken ≥ e.max_actions)] <;>
    rw [if_neg (by simp; omega)]

/-- C6 witness: the agent at (0,0) of a 2×2 grid issuing `left` stays at
(0,0), with success and one step consumed. -/
theorem C6_witness :
    (mkEnvironment 2 2 0 0 0 none (fun _ => 0)).actions_taken <
      (mkEnvironment 2 2 0 0 0 none (fun _ => 0)).max_actions ∧
    (mkEnvironment 2 2 0 0 0 none (fun _ => 0)).agent_x = 0 ∧
    accept_action (mkEnvironment 2 2 0 0 0 none (fun _ => 0)) .left =
      (true, { mkEnvironment 2 2 0 0 0 none (fun _ => 0) with
        actions_taken := (mkEnvironment 2 2 0 0 0 none (fun _ => 0)).actions_taken + 1 }) :=
  ⟨by decide, rfl,
    (C6_boundary_move_consumes_step (mkEnvironment 2 2 0 0 0 none (fun _ => 0))
      (by decide)).1 rfl⟩

/-- C7: in a state that still has step budget, a suck on a dirty cell
removes exactly that cell from the dirt set (its size drops by 1) and
raises performance by exactly 1; a suck on a clean cell changes neither;
both report success. -/
theorem C7_suck_semantics (e : Environment)
    (h : e.actions_taken < e.max_actions) :
    (accept_action e .suck).1 = true ∧
    ((e.agent_x, e.agent_y) ∈ e.dirt →
      (accept_action e .suck).2.dirt = e.dirt.erase (e.agent_x, e.agent_y) ∧
      (accept_action e .suck).2.dirt.card + 1 = e.dirt.card ∧
      (accept_action e .suck).2.performance = e.performance + 1) ∧
    ((e.agent_x, e.agent_y) ∉ e.dirt →
      (accept_action e .suck).2.dirt = e.dirt ∧
      (accept_action e .suck).2.performance = e.performance) := by
  simp only [accept_action, if_neg (by omega : ¬ e.actions_taken ≥ e.max_actions)]
  refine ⟨by simp, ?_, ?_⟩ <;> intro hd
  · rw [if_pos hd]
    exact ⟨rfl, Finset.card_erase_add_one hd, rfl⟩
  · rw [if_neg hd]
    exact ⟨rfl, rfl⟩

/-- C7 witness: sucking the dirty cell of a fully dirty 1×1 grid. -/
theorem C7_witness :
    (mkEnvironment 1 1 0 0 1 (some 0) (fun _ => 0)).actions_taken <
      (mkEnvironment 1 1 0 0 1 (some 0) (fun _ => 0)).max_actions ∧
    ((accept_action (mkEnvironment 1 1 0 0 1 (some 0) (fun _ => 0)) .suck).1 = true ∧
      (((mkEnvironment 1 1 0 0 1 (some 0) (fun _ => 0)).agent_x,
          (mkEnvironment 1 1 0 0 1 (some 0) (fun _ => 0)).agent_y) ∈
            (mkEnvironment 1 1 0 0 1 (some 0) (fun _ => 0)).dirt →
        (accept_action (mkEnvironment 1 1 0 0 1 (some 0) (fun _ => 0)) .suck).2.dirt =
          (mkEnvironment 1 1 0 0 1 (some 0) (fun _ => 0)).dirt.erase
            ((mkEnvironment 1 1 0 0 1 (some 0) (fun _ => 0)).agent_x,
              (mkEnvironment 1 1 0 0 1 (some 0) (fun _ => 0)).agent_y) ∧
        (accept_action (mkEnvironment 1 1 0 0 1 (some 0) (fun _ => 0)) .suck).2.dirt.card + 1 =
          (mkEnvironment 1 1 0 0 1 (some 0) (fun _ => 0)).dirt.card ∧
        (accept_action (mkEnvironment 1 1 0 0 1 (some 0) (fun _ => 0)) .suck).2.performance =
          (mkEnvironment 1 1 0 0 1 (some 0) (fun _ => 0)).performance + 1) ∧
      (((mkEnvironment 1 1 0 0 1 (some 0) (fun _ => 0)).agent_x,
          (mkEnvironment 1 1 0 0 1 (some 0) (fun _ => 0)).agent_y) ∉
            (mkEnvironment 1 1 0 0 1 (some 0) (fun _ => 0)).dirt →
        (accept_action (mkEnvironment 1 1 0 0 1 (some 0) (fun _ => 0)) .suck).2.dirt =
          (mkEnvironment 1 1 0 0 1 (some 0) (fun _ => 0)).dirt ∧
        (accept_action (mkEnvironment 1 1 0 0 1 (some 0) (fun _ => 0)) .suck).2.performance =
          (mkEnvironment 1 1 0 0 1 (some 0) (fun _ => 0)).performance)) :=
  ⟨by decide, C7_suck_semantics (mkEnvironment 1 1 0 0 1 (some 0) (fun _ => 0)) (by decide)⟩

/-- C8: along any action sequence from a fresh session, `stepsTaken` never
exceeds the 1000-step budget; one further call increments `stepsTaken` by
exactly 1 when it reports success and changes nothing when it reports
failure; and `performance` is monotone both over the sequence and over the
further call. -/
theorem C8_steps_and_performance
    (sizeX sizeY initX initY : Int) (rate : ℚ) (seed : Option Nat)
    (g : Nat → Nat) (acts : List Action) (a : Action) :
    (runActions (mkEnvironment sizeX sizeY initX initY rate seed g) acts).actions_taken ≤ 1000 ∧
    ((accept_action (runActions (mkEnvironment sizeX sizeY initX initY rate seed g) acts) a).1 = true →
      (accept_action (runActions (mkEnvironment sizeX sizeY initX initY rate seed g) acts) a).2.actions_taken =
        (runActions (mkEnvironment sizeX sizeY initX initY rate seed g) acts).actions_taken + 1) ∧
    ((accept_action (runActions (mkEnvironment sizeX sizeY initX initY rate seed g) acts) a).1 = false →
      (accept_action (runActions (mkEnvironment sizeX sizeY initX initY rate seed g) acts) a).2 =
        runActions (mkEnvironment sizeX sizeY initX initY rate seed g) acts) ∧
    (runActions (mkEnvironment sizeX sizeY initX initY rate seed g) acts).performance ≤
      (accept_action (runActions (mkEnvironment sizeX sizeY initX initY rate seed g) acts) a).2.performance ∧
    (mkEnvironment sizeX sizeY initX initY rate seed g).performance ≤
      (runActions (mkEnvironment sizeX sizeY initX initY rate seed g) acts).performance := by
  have hmax := (runActions_frame (mkEnvironment sizeX sizeY initX initY rate seed g) acts).2.2.1
  have hle := runActions_steps_le (mkEnvironment sizeX sizeY initX initY rate seed g) acts
    (by norm_num [mkEnvironment])
  refine ⟨?_, ?_, ?_, ?_, ?_⟩
  · simpa [mkEnvironment] using hle
  · intro hs
    exact accept_action_actions_taken _ a ((accept_action_fst _ a).mp hs)
  · intro hs
    have hge : (runActions (mkEnvironment sizeX sizeY initX initY rate seed g) acts).actions_taken ≥
        (runActions (mkEnvironment sizeX sizeY initX initY rate seed g) acts).max_actions := by
      by_contra hlt
      rw [(accept_action_fst _ a).mpr (by omega)] at hs
      exact absurd hs (by simp)
    exact congrArg Prod.snd (accept_action_rejected a hge)
  · exact accept_action_performance_mono _ a
  · exact runActions_performance_mono _ acts

/-- C8 witness: the statement instantiated on a concrete session, sequence
and extra action. -/
theorem C8_witness :
    (runActions (mkEnvironment 2 2 0 0 0 none (fun _ => 0)) [Action.idle]).actions_taken ≤ 1000 ∧
    ((accept_action (runActions (mkEnvironment 2 2 0 0 0 none (fun _ => 0)) [Action.idle]) Action.suck).1 = true →
      (accept_action (runActions (mkEnvironment 2 2 0 0 0 none (fun _ => 0)) [Action.idle]) Action.suck).2.actions_taken =
        (runActions (mkEnvironment 2 2 0 0 0 none (fun _ => 0)) [Action.idle]).actions_taken + 1) ∧
    ((accept_action (runActions (mkEnvironment 2 2 0 0 0 none (fun _ => 0)) [Action.idle]) Action.suck).1 = false →
      (accept_action (runActions (mkEnvironment 2 2 0 0 0 none (fun _ => 0)) [Action.idle]) Action.suck).2 =
        runActions (mkEnvironment 2 2 0 0 0 none (fun _ => 0)) [Action.idle]) ∧
    (runActions (mkEnvironment 2 2 0 0 0 none (fun _ => 0)) [Action.idle]).performance ≤
      (accept_action (runActions (mkEnvironment 2 2 0 0 0 none (fun _ => 0)) [Action.idle]) Action.suck).2.performance ∧
    (mkEnvironment 2 2 0 0 0 none (fun _ => 0)).performance ≤
      (runActions (mkEnvironment 2 2 0 0 0 none (fun _ => 0)) [Action.idle]).performance :=
  C8_steps_and_performance 2 2 0 0 0 none (fun _ => 0) [Action.idle] Action.suck

/-- C1 counterexample: a session terminal with reason `AllDirtCleaned`
(1×1 grid, dirt rate 0: the very first termination check records
`all_cleaned` at `stepsTaken = 0`) still accepts the next action with
`success = true` and `stepsTaken` incremented — the claim fails for the
`AllDirtCleaned` kind of terminal state. -/
theorem C1_counterexample :
    (is_finished (mkEnvironment 1 1 0 0 0 none (fun _ => 0))).2.completion_reason =
      some ("all_cleaned") ∧
    (accept_action (is_finished (mkEnvironment 1 1 0 0 0 none (fun _ => 0))).2
      Action.idle).1 = true ∧
    (accept_action (is_finished (mkEnvironment 1 1 0 0 0 none (fun _ => 0))).2
        Action.idle).2.actions_taken =
      (is_finished (mkEnvironment 1 1 0 0 0 none (fun _ => 0))).2.actions_taken + 1 := by
  have hd := mkEnvironment_dirt_rate_zero 1 1 0 0 none (fun _ => 0)
  have hfin : is_finished (mkEnvironment 1 1 0 0 0 none (fun _ => 0)) =
      (true, { mkEnvironment 1 1 0 0 0 none (fun _ => 0) with
        completion_reason := some ("all_cleaned") }) := by
    rw [is_finished, if_neg (by decide), if_pos hd,
      if_pos (by rfl : (mkEnvironment 1 1 0 0 0 none (fun _ => 0)).completion_reason = none)]
  rw [hfin]
  refine ⟨rfl, ?_, ?_⟩
  · exact (accept_action_fst _ _).mpr (by decide)
  · exact accept_action_actions_taken _ _ (by decide)

/-- C1 amended: `accept_action` rejects (returns `success = false` with the
state unchanged) exactly when the step budget is exhausted — the
`MaxStepsReached` terminal condition; any state with remaining budget,
including one terminal with `AllDirtCleaned`, still gets `success = true`. -/
theorem C1_reject_only_on_budget (e : Environment) (a : Action) :
    (e.actions_taken ≥ e.max_actions → accept_action e a = (false, e)) ∧
    (e.actions_taken < e.max_actions → (accept_action e a).1 = true) :=
  ⟨accept_action_rejected a, fun h => (accept_action_fst e a).mpr h⟩

/-- C1 witness: the two cases of the amended claim on concrete states. -/
theorem C1_witness :
    (maxedEnv.actions_taken ≥ maxedEnv.max_actions ∧
      accept_action maxedEnv Action.idle = (false, maxedEnv)) ∧
    (dirtyEnv.actions_taken < dirtyEnv.max_actions ∧
      (accept_action dirtyEnv Action.idle).1 = true) :=
  ⟨⟨by decide, (C1_reject_only_on_budget maxedEnv Action.idle).1 (by decide)⟩,
    ⟨by decide, (C1_reject_only_on_budget dirtyEnv Action.idle).2 (by decide)⟩⟩

/-- C2 counterexample: an 8×8 session with dirt rate 0 is terminal at
`stepsTaken = 0`, with reason `all_cleaned` — not only via
`MaxStepsReached` at `stepsTaken = 1000` as claimed. -/
theorem C2_counterexample :
    (is_finished (mkEnvironment 8 8 0 0 0 none (fun _ => 0))).1 = true ∧
    (is_finished (mkEnvironment 8 8 0 0 0 none (fun _ => 0))).2.completion_reason =
      some ("all_cleaned") ∧
    (mkEnvironment 8 8 0 0 0 none (fun _ => 0)).actions_taken = 0 := by
  have hd := mkEnvironment_dirt_rate_zero 8 8 0 0 none (fun _ => 0)
  have hfin : is_finished (mkEnvironment 8 8 0 0 0 none (fun _ => 0)) =
      (true, { mkEnvironment 8 8 0 0 0 none (fun _ => 0) with
        completion_reason := some ("all_cleaned") }) := by
    rw [is_finished, if_neg (by decide), if_pos hd,
      if_pos (by rfl : (mkEnvironment 8 8 0 0 0 none (fun _ => 0)).completion_reason = none)]
  rw [hfin]
  exact ⟨rfl, rfl, rfl⟩

/-- C2 amended: with dirt rate 0 the dirt set is empty from construction,
so every suck yields no reward and `performance` stays 0 along any action
sequence; but the session is terminal as soon as checked: any termination
check made before the budget is reached reports `all_cleaned`, never
`max_steps_reached`. -/
theorem C2_rate_zero_semantics (sizeX sizeY initX initY : Int)
    (seed : Option Nat) (g : Nat → Nat) (acts : List Action) :
    (mkEnvironment sizeX sizeY initX initY 0 seed g).dirt = ∅ ∧
    (runActions (mkEnvironment sizeX sizeY initX initY 0 seed g) acts).performance = 0 ∧
    ((runActions (mkEnvironment sizeX sizeY initX initY 0 seed g) acts).actions_taken < 1000 →
      is_finished (runActions (mkEnvironment sizeX sizeY initX initY 0 seed g) acts) =
        (true, { runActions (mkEnvironment sizeX sizeY initX initY 0 seed g) acts with
          completion_reason := some ("all_cleaned") })) := by
  have hd := mkEnvironment_dirt_rate_zero sizeX sizeY initX initY seed g
  have hrun := runActions_dirt_empty (mkEnvironment sizeX sizeY initX initY 0 seed g) acts hd
  have hframe := runActions_frame (mkEnvironment sizeX sizeY initX initY 0 seed g) acts
  refine ⟨hd, ?_, ?_⟩
  · rw [hrun.2]
    rfl
  · intro hsteps
    have hmax : (runActions (mkEnvironment sizeX sizeY initX initY 0 seed g) acts).max_actions =
        1000 := hframe.2.2.1
    have hreason : (runActions (mkEnvironment sizeX sizeY initX initY 0 seed g) acts).completion_reason =
        none := hframe.2.2.2
    rw [is_finished, if_neg (by omega), if_pos hrun.1, if_pos hreason]

/-- C2 witness: the amended claim on a fresh 8×8 session with no actions
taken. -/
theorem C2_witness :
    (mkEnvironment 8 8 0 0 0 none (fun _ => 0)).dirt = ∅ ∧
    (runActions (mkEnvironment 8 8 0 0 0 none (fun _ => 0)) []).performance = 0 ∧
    ((runActions (mkEnvironment 8 8 0 0 0 none (fun _ => 0)) []).actions_taken < 1000 ∧
      is_finished (runActions (mkEnvironment 8 8 0 0 0 none (fun _ => 0)) []) =
        (true, { runActions (mkEnvironment 8 8 0 0 0 none (fun _ => 0)) [] with
          completion_reason := some ("all_cleaned") })) :=
  ⟨(C2_rate_zero_semantics 8 8 0 0 none (fun _ => 0) []).1,
    (C2_rate_zero_semantics 8 8 0 0 none (fun _ => 0) []).2.1,
    by decide,
    (C2_rate_zero_semantics 8 8 0 0 none (fun _ => 0) []).2.2 (by decide)⟩

/-- C3 counterexample: a 3×1 grid at dirt rate 1/2 gets
`int(3·1·0.5) = 1` dirty cell, while the claimed `round(3·1·0.5)` is 2
(round-half-to-even): the initial dirt count differs from the claimed
`round`. -/
theorem C3_counterexample :
    (mkEnvironment 3 1 0 0 (1 / 2) (some 0) (fun _ => 0)).dirt.card ≠
      (pyRound (((3 : Int) : ℚ) * ((1 : Int) : ℚ) * (1 / 2))).toNat ∧
    (mkEnvironment 3 1 0 0 (1 / 2) (some 0) (fun _ => 0)).dirt.card = 1 ∧
    pyRound (((3 : Int) : ℚ) * ((1 : Int) : ℚ) * (1 / 2)) = 2 := by
  have hcard : (mkEnvironment 3 1 0 0 (1 / 2) (some 0) (fun _ => 0)).dirt.card = 1 := by
    rw [mkEnvironment_dirt, initialize_dirt_card _ _ _ _
      (numDirty_le 3 1 (1 / 2) (by norm_num) (by norm_num) (by norm_num) (by norm_num))]
    norm_num [pyInt]
  have hround : pyRound (((3 : Int) : ℚ) * ((1 : Int) : ℚ) * (1 / 2)) = 2 := by
    norm_num [pyRound]
  refine ⟨?_, hcard, hround⟩
  rw [hcard, hround]
  decide

/-- C3 amended: for a valid construction the number of initially dirty
cells equals `int(width · height · dirtRate)` — truncation, not `round` —
and the dirty cells are distinct cells inside the grid. -/
theorem C3_dirt_count (sizeX sizeY initX initY : Int) (rate : ℚ)
    (seed : Option Nat) (g : Nat → Nat)
    (hx1 : 1 ≤ sizeX) (hx2 : sizeX ≤ 256) (hy1 : 1 ≤ sizeY) (hy2 : sizeY ≤ 256)
    (hr0 : 0 ≤ rate) (hr1 : rate ≤ 1) :
    (mkEnvironment sizeX sizeY initX initY rate seed g).dirt.card =
      (pyInt (sizeX * sizeY * rate)).toNat ∧
    ∀ p ∈ (mkEnvironment sizeX sizeY initX initY rate seed g).dirt,
      0 ≤ p.1 ∧ p.1 < sizeX ∧ 0 ≤ p.2 ∧ p.2 < sizeY := by
  have hk := numDirty_le sizeX sizeY rate (by omega) (by omega) hr0 hr1
  constructor
  · rw [mkEnvironment_dirt]
    exact initialize_dirt_card _ _ _ _ hk
  · intro p hp
    rw [mkEnvironment_dirt] at hp
    exact (mem_allCells (by omega) (by omega)).mp
      (initialize_dirt_subset _ _ _ _ hk p hp)

/-- C3 witness: the amended claim on a 2×2 grid at dirt rate 1/2. -/
theorem C3_witness :
    ((1 : Int) ≤ 2 ∧ (2 : Int) ≤ 256 ∧ (0 : ℚ) ≤ 1 / 2 ∧ (1 / 2 : ℚ) ≤ 1) ∧
    ((mkEnvironment 2 2 0 0 (1 / 2) (some 7) (fun _ => 0)).dirt.card =
      (pyInt (((2 : Int) : ℚ) * ((2 : Int) : ℚ) * (1 / 2))).toNat ∧
    ∀ p ∈ (mkEnvironment 2 2 0 0 (1 / 2) (some 7) (fun _ => 0)).dirt,
      0 ≤ p.1 ∧ p.1 < 2 ∧ 0 ≤ p.2 ∧ p.2 < 2) :=
  ⟨⟨by norm_num, by norm_num, by norm_num, by norm_num⟩,
    C3_dirt_count 2 2 0 0 (1 / 2) (some 7) (fun _ => 0)
      (by norm_num) (by norm_num) (by norm_num) (by norm_num)
      (by norm_num) (by norm_num)⟩

/-- C9 counterexample: on a freshly constructed 1×1 session with no dirt,
the `is_finished` call made by the sense endpoint records the completion reason —
`sense` mutated `terminationReason`, so it is not a pure read. -/
theorem C9_counterexample :
    (mkEnvironment 1 1 0 0 0 none (fun _ => 0)).completion_reason = none ∧
    (sense (mkEnvironment 1 1 0 0 0 none (fun _ => 0))).2.completion_reason =
      some ("all_cleaned") := by
  have hd := mkEnvironment_dirt_rate_zero 1 1 0 0 none (fun _ => 0)
  have hfin : is_finished (mkEnvironment 1 1 0 0 0 none (fun _ => 0)) =
      (true, { mkEnvironment 1 1 0 0 0 none (fun _ => 0) with
        completion_reason := some ("all_cleaned") }) := by
    rw [is_finished, if_neg (by decide), if_pos hd,
      if_pos (by rfl : (mkEnvironment 1 1 0 0 0 none (fun _ => 0)).completion_reason = none)]
  constructor
  · rfl
  · show (is_finished (mkEnvironment 1 1 0 0 0 none (fun _ => 0))).2.completion_reason =
      some ("all_cleaned")
    rw [hfin]

/-- C9 amended: `sense` never changes position, dirt, performance or
`stepsTaken`; it is a pure read except that its `is_finished` call may
record `terminationReason` — when the session is not finished, or the
reason is already set, `sense` leaves the state entirely unchanged. -/
theorem C9_sense_reads (e : Environment) :
    (sense e).2.agent_x = e.agent_x ∧
    (sense e).2.agent_y = e.agent_y ∧
    (sense e).2.dirt = e.dirt ∧
    (sense e).2.performance = e.performance ∧
    (sense e).2.actions_taken = e.actions_taken ∧
    ((is_finished e).1 = false → (sense e).2 = e) ∧
    (e.completion_reason ≠ none → (sense e).2 = e) := by
  have h1 := is_finished_fields e
  have h2 := is_finished_pure_cases e
  exact ⟨h1.1, h1.2.1, h1.2.2.1, h1.2.2.2.1, h1.2.2.2.2, h2.1, h2.2⟩

/-- C9 witness: the two pure-read cases, on a running dirty session and on
an already-terminal session. -/
theorem C9_witness :
    ((is_finished dirtyEnv).1 = false ∧ (sense dirtyEnv).2 = dirtyEnv) ∧
    (maxedEnv.completion_reason ≠ none ∧ (sense maxedEnv).2 = maxedEnv) :=
  ⟨⟨by decide, (C9_sense_reads dirtyEnv).2.2.2.2.2.1 (by decide)⟩,
    ⟨by decide, (C9_sense_reads maxedEnv).2.2.2.2.2.2 (by decide)⟩⟩

/-- C10: action-name validation at the protocol boundary is
case-insensitive — any string whose lowercasing (`pyLower`, which agrees
with Python `str.lower()` on the outcome of this lookup for every string,
including the non-ASCII U+212A KELVIN SIGN → `k` mapping) is one of the
six action names is dispatched to the corresponding action, and any other
non-empty string is rejected as an invalid action with the session state
untouched. -/
theorem C10_case_insensitive_validation (e : Environment) (s : String) :
    (∀ a : Action, action_map (pyLower s) = some a →
      execute_action e s =
        (ActOutcome.executed (accept_action e a).1
          ((accept_action e a).2.performance - e.performance),
         (is_finished (accept_action e a).2).2)) ∧
    (s ≠ "" → action_map (pyLower s) = none →
      execute_action e s = (ActOutcome.invalidAction, e)) := by
  constructor
  · intro a ha
    have hne : s ≠ "" := by
      intro hs
      rw [hs] at ha
      simp [pyLower, action_map] at ha
    rw [execute_action, if_neg hne, ha]
  · intro hne hnone
    rw [execute_action, if_neg hne, hnone]

/-- C10 witness: `"SUCK"` and `"SUC"` followed by U+212A KELVIN SIGN (whose
Python lowercase is `suck`) are both dispatched as the suck action, and the
unknown name `"grab"` is rejected without mutation, on a concrete session. -/
theorem C10_witness :
    action_map (pyLower ("SUCK")) = some Action.suck ∧
    execute_action dirtyEnv ("SUCK") =
      (ActOutcome.executed (accept_action dirtyEnv Action.suck).1
        ((accept_action dirtyEnv Action.suck).2.performance - dirtyEnv.performance),
       (is_finished (accept_action dirtyEnv Action.suck).2).2) ∧
    action_map (pyLower ("SUCK")) = some Action.suck ∧
    execute_action dirtyEnv ("SUCK") =
      (ActOutcome.executed (accept_action dirtyEnv Action.suck).1
        ((accept_action dirtyEnv Action.suck).2.performance - dirtyEnv.performance),
       (is_finished (accept_action dirtyEnv Action.suck).2).2) ∧
    ("grab" ≠ "" ∧ action_map (pyLower ("grab")) = none) ∧
    execute_action dirtyEnv ("grab") = (ActOutcome.invalidAction, dirtyEnv) :=
  ⟨by decide,
    (C10_case_insensitive_validation dirtyEnv ("SUCK")).1 Action.suck (by decide),
    by decide,
    (C10_case_insensitive_validation dirtyEnv ("SUCK")).1 Action.suck (by decide),
    ⟨by decide, by decide⟩,
    (C10_case_insensitive_validation dirtyEnv ("grab")).2 (by decide) (by decide)⟩

end VacuumWorld
